import Mathlib

/-!
Shallow embedding of the graphology reference implementation, translated from
src/src/graph.js.  Node and edge keys are strings; the JavaScript object used
as the key register (map = false) and the ES2015 Map (map = true) are both
rendered as insertion-ordered association lists with unique keys.  Counters
are integers (JavaScript numbers); a degree field that a given graph type does
not initialize is an absent property, rendered as the value none of Option Int,
and arithmetic on such a field propagates none the way NaN propagates in
JavaScript.  The modules indices.js, utils.js, errors.js and the iteration
modules, imported by graph.js, are not part of the sources; the definitions
that depend on them are modelled from the spec and say so in their doc comment.
-/

namespace Graphology

/-- The type constructor option of a graph: directed, undirected or mixed. -/
inductive GType where
  | directed
  | undirected
  | mixed
deriving DecidableEq

/-- Attribute values, reduced to what the validation observes: a plain object,
or any other (truthy) value that fails the isPlainObject test. -/
inductive JSVal where
  | obj (fields : List (String × String))
  | nonObj
deriving DecidableEq

/-- Modelled from the spec: isPlainObject comes from src/utils.js which is
absent from src/; a plain mapping passes, anything else fails. -/
def isPlainObject : JSVal → Bool
  | .obj _ => true
  | .nonObj => false

/-- Modelled from the spec: the three error classes of src/errors.js, absent
from src/ (section 7 of the spec: InvalidArgument, NotFound, UsageViolation).
Error messages are not modelled. -/
inductive GraphError where
  | invalidArguments
  | notFound
  | usage
deriving DecidableEq

/-- Returns true exactly when an Except value carries an error. -/
def isErr : Except GraphError α → Bool
  | .error _ => true
  | .ok _ => false

/-- Association list with string keys: the rendering of a JavaScript object
used as a dictionary, and of an ES2015 Map, both insertion ordered. -/
abbrev Assoc (α : Type) := List (String × α)

/-- Key lookup, the rendering of obj[k] (first matching entry wins; stores
built by aset have unique keys). -/
def aget : Assoc α → String → Option α
  | [], _ => none
  | p :: rest, k => if p.1 = k then some p.2 else aget rest k

/-- Key membership, the rendering of (k in obj) and of map.has(k). -/
def ahas (l : Assoc α) (k : String) : Bool := (aget l k).isSome

/-- Key assignment, the rendering of obj[k] = v and map.set(k, v): replaces in
place when the key exists, appends otherwise. -/
def aset : Assoc α → String → α → Assoc α
  | [], k, v => [(k, v)]
  | p :: rest, k, v => if p.1 = k then (k, v) :: rest else p :: aset rest k v

/-- Key removal, the rendering of delete obj[k] and map.delete(k). -/
def adel : Assoc α → String → Assoc α
  | [], _ => []
  | p :: rest, k => if p.1 = k then rest else p :: adel rest k

theorem ahas_nil (k : String) : ahas ([] : Assoc α) k = false := rfl

theorem ahas_cons (p : String × α) (l : Assoc α) (k : String) :
    ahas (p :: l) k = if p.1 = k then true else ahas l k := by
  simp only [ahas, aget]
  split <;> simp

theorem length_aset (l : Assoc α) (k : String) (v : α) :
    (aset l k v).length = if ahas l k then l.length else l.length + 1 := by
  induction l with
  | nil => simp [aset, ahas, aget]
  | cons p rest ih =>
    by_cases h : p.1 = k
    · simp [aset, h, ahas_cons]
    · simp only [aset, h, if_false, List.length_cons, ih, ahas_cons]
      split <;> simp

theorem length_adel (l : Assoc α) (k : String) :
    l.length = (adel l k).length + (if ahas l k then 1 else 0) := by
  induction l with
  | nil => simp [adel, ahas, aget]
  | cons p rest ih =>
    by_cases h : p.1 = k
    · simp [adel, h, ahas_cons]
    · simp only [adel, h, if_false, List.length_cons, ahas_cons]
      rw [ih]
      split <;> omega

theorem ahas_aset_of_ahas {l : Assoc α} {j : String} (k : String) (v : α)
    (h : ahas l j = true) : ahas (aset l k v) j = true := by
  induction l with
  | nil => simp [ahas, aget] at h
  | cons p rest ih =>
    by_cases hk : p.1 = k
    · rw [ahas_cons] at h
      simp only [aset, hk, if_true, ahas_cons]
      by_cases hj : k = j
      · simp [hj]
      · have hpj : ¬ p.1 = j := by rw [hk]; exact hj
        simp only [hpj, if_false] at h
        simp [hj, h]
    · rw [ahas_cons] at h
      simp only [aset, hk, if_false, ahas_cons]
      by_cases hj : p.1 = j
      · simp [hj]
      · simp only [hj, if_false] at h ⊢
        exact ih h

/-- Node records of the entity store, from Graph#addNode: attribute mapping,
selfLoops counter, and the degree counters the graph type initializes -- a
counter the type does not initialize is an absent property (none). -/
structure NodeData where
  attributes : JSVal
  selfLoops : Int
  inDegree : Option Int
  outDegree : Option Int
  undirectedDegree : Option Int
deriving DecidableEq

/-- Edge records of the entity store, from Graph#_addEdge. -/
structure EdgeData where
  undirected : Bool
  attributes : JSVal
  source : String
  target : String
deriving DecidableEq

/-- Modelled from the spec: the four adjacency registers a node owns once the
structure index is computed (spec section 4.3); src/indices.js is absent from
src/.  Each register maps a neighbor key to the set of connecting edge ids,
rendered as an insertion-ordered duplicate-free list.  An absent register and
an empty one are indistinguishable to every reader in graph.js, so registers
are total with empty default. -/
structure NodeRegisters where
  out : Assoc (List String)
  «in» : Assoc (List String)
  undirectedOut : Assoc (List String)
  undirectedIn : Assoc (List String)
deriving DecidableEq

def emptyRegisters : NodeRegisters :=
  { out := [], «in» := [], undirectedOut := [], undirectedIn := [] }

/-- The graph instance: constructor options, the two counters, the entity
store (nodes and edges), and the structure index with its computed flag.
graph.js keeps the adjacency registers on the node records; the embedding
keeps them in a separate per-node table, which the spec (sections 2 and 3)
also treats as a component distinct from the entity store. -/
structure Graph where
  map : Bool
  multi : Bool
  type : GType
  selfLoops : Bool
  edgeKeyGenerator : Bool → String → String → Option JSVal → String
  order : Int
  size : Int
  nodes : Assoc NodeData
  edges : Assoc EdgeData
  structureComputed : Bool
  index : Assoc NodeRegisters

/-- The Graph constructor with an empty hydration argument: counters at zero,
empty registers, no index computed. -/
def newGraph (map multi : Bool) (type : GType) (selfLoops : Bool)
    (edgeKeyGenerator : Bool → String → String → Option JSVal → String) : Graph :=
  { map := map, multi := multi, type := type, selfLoops := selfLoops
    edgeKeyGenerator := edgeKeyGenerator
    order := 0, size := 0, nodes := [], edges := []
    structureComputed := false, index := [] }

/-- Graph#hasNode: membership in the node register. -/
def hasNode (g : Graph) (node : String) : Bool := ahas g.nodes node

/-- Graph#hasEdge with one argument: membership in the edge register. -/
def hasEdge1 (g : Graph) (edge : String) : Bool := ahas g.edges edge

/-- Modelled from the spec: adding to a BasicSet (src/utils.js, absent from
src/) keeps insertion order and ignores an element already present. -/
def setAdd (s : List String) (e : String) : List String :=
  if s.contains e then s else s ++ [e]

/-- Inserts an edge id into one adjacency register under a neighbor key,
creating the nested set on demand. -/
def registerAdd (r : Assoc (List String)) (neighbor e : String) :
    Assoc (List String) :=
  aset r neighbor (setAdd ((aget r neighbor).getD []) e)

/-- Removes an edge id from one adjacency register under a neighbor key,
pruning the nested set when it becomes empty (spec section 4.2). -/
def registerRemove (r : Assoc (List String)) (neighbor e : String) :
    Assoc (List String) :=
  match aget r neighbor with
  | none => r
  | some es =>
    let es := es.filter (fun x => x ≠ e)
    if es.isEmpty then adel r neighbor else aset r neighbor es

/-- Rewrites the register record of one node, creating it on demand. -/
def modifyRegisters (g : Graph) (node : String)
    (f : NodeRegisters → NodeRegisters) : Graph :=
  { g with index := aset g.index node (f ((aget g.index node).getD emptyRegisters)) }

/-- Modelled from the spec: updateStructureIndex of src/indices.js, absent
from src/ (spec section 4.3): a directed edge goes into the out register of
its source under the target and into the in register of its target under the
source; an undirected edge goes into undirectedOut of the source and
undirectedIn of the target. -/
def updateStructureIndex (g : Graph) (edge : String) (data : EdgeData) : Graph :=
  if data.undirected then
    modifyRegisters
      (modifyRegisters g data.source
        (fun r => { r with undirectedOut := registerAdd r.undirectedOut data.target edge }))
      data.target
      (fun r => { r with undirectedIn := registerAdd r.undirectedIn data.source edge })
  else
    modifyRegisters
      (modifyRegisters g data.source
        (fun r => { r with out := registerAdd r.out data.target edge }))
      data.target
      (fun r => { r with «in» := registerAdd r.«in» data.source edge })

/-- Modelled from the spec: clearEdgeFromStructureIndex of src/indices.js,
absent from src/: removes the edge id from the registers its kind uses,
pruning nested sets that become empty. -/
def clearEdgeFromStructureIndex (g : Graph) (edge : String) (data : EdgeData) : Graph :=
  if data.undirected then
    modifyRegisters
      (modifyRegisters g data.source
        (fun r => { r with undirectedOut := registerRemove r.undirectedOut data.target edge }))
      data.target
      (fun r => { r with undirectedIn := registerRemove r.undirectedIn data.source edge })
  else
    modifyRegisters
      (modifyRegisters g data.source
        (fun r => { r with out := registerRemove r.out data.target edge }))
      data.target
      (fun r => { r with «in» := registerRemove r.«in» data.source edge })

/-- Graph#_updateIndex for the structure index: a no-op while the index is
not computed, an incremental insertion once it is. -/
def _updateIndexStructure (g : Graph) (edge : String) (data : EdgeData) : Graph :=
  if g.structureComputed = false then g else updateStructureIndex g edge data

/-- Graph#_clearEdgeFromIndex for the structure index: a no-op while the
index is not computed. -/
def _clearEdgeFromIndexStructure (g : Graph) (edge : String) (data : EdgeData) : Graph :=
  if g.structureComputed = false then g else clearEdgeFromStructureIndex g edge data

/-- The structure branch of Graph#computeIndex: an early return when already
computed, otherwise the flag is set and every stored edge is inserted. -/
def computeIndexStructure (g : Graph) : Graph :=
  if g.structureComputed = true then g
  else
    List.foldl (fun acc p => updateStructureIndex acc p.1 p.2)
      { g with structureComputed := true } g.edges

/-- Modelled from the spec: the INDICES set of src/indices.js, absent from
src/; graph.js initializes exactly the structure and neighbors entries of
_indices. -/
def INDICES : List String := ["structure", "neighbors"]

/-- Graph#computeIndex: rejects an unknown index name with InvalidArgument,
computes the structure index for the name structure, and is a no-op for the
neighbors entry, which no code path computes. -/
def computeIndex (g : Graph) (name : String) : Except GraphError Graph :=
  if INDICES.contains name = false then .error .invalidArguments
  else if name = "structure" then .ok (computeIndexStructure g)
  else .ok g

/-- Graph#hasDirectedEdge with two arguments, value part.  The method first
computes the structure index (its only effect on the instance, here the
transition to computeIndexStructure g), returns false when source or target is
absent, and otherwise tests the out register of the source under the target.
The arity-2 branch contains no throw. -/
def hasDirectedEdge2 (g : Graph) (source target : String) : Bool :=
  let gi := computeIndexStructure g
  if hasNode gi source = false ∨ hasNode gi target = false then false
  else
    let r := (aget gi.index source).getD emptyRegisters
    match aget r.out target with
    | none => false
    | some es => es.length != 0

/-- Graph#hasUndirectedEdge with two arguments, value part: after computing
the index and checking both nodes, reads undirectedOut of the source under the
target and falls back to undirectedIn only when that slot is absent. -/
def hasUndirectedEdge2 (g : Graph) (source target : String) : Bool :=
  let gi := computeIndexStructure g
  if hasNode gi source = false ∨ hasNode gi target = false then false
  else
    let r := (aget gi.index source).getD emptyRegisters
    let es? := match aget r.undirectedOut target with
      | none => aget r.undirectedIn target
      | some es => some es
    match es? with
    | none => false
    | some es => es.length != 0

/-- Graph#hasEdge with two arguments: the directed test, then the undirected
test.  In graph.js the second call sees the instance already mutated by the
first; computing the index is idempotent, so the value composition below
coincides with that threading. -/
def hasEdge2 (g : Graph) (source target : String) : Bool :=
  hasDirectedEdge2 g source target || hasUndirectedEdge2 g source target

/-- Graph#getDirectedEdge, value part: the first id of the matching out set
(insertion order), or none. -/
def getDirectedEdge (g : Graph) (source target : String) : Option String :=
  let gi := computeIndexStructure g
  if hasNode gi source = false ∨ hasNode gi target = false then none
  else
    let r := (aget gi.index source).getD emptyRegisters
    match aget r.out target with
    | none => none
    | some es => es.head?

/-- Graph#getUndirectedEdge, value part: undirectedOut of the source first,
undirectedIn only when that slot is absent, then the first id of the set. -/
def getUndirectedEdge (g : Graph) (source target : String) : Option String :=
  let gi := computeIndexStructure g
  if hasNode gi source = false ∨ hasNode gi target = false then none
  else
    let r := (aget gi.index source).getD emptyRegisters
    let es? := match aget r.undirectedOut target with
      | none => aget r.undirectedIn target
      | some es => some es
    match es? with
    | none => none
    | some es => es.head?

/-- JavaScript truthiness of an edge lookup result: undefined and the empty
string are falsy, every other string is truthy. -/
def truthy : Option String → Bool
  | none => false
  | some s => s != ""

/-- Graph#getEdge: the directed lookup when the type permits it, kept when
its result is truthy (the if (edge) test of graph.js), otherwise the
undirected lookup when the type permits it, otherwise whatever the first
lookup left. -/
def getEdge (g : Graph) (source target : String) : Option String :=
  let edge := if g.type = GType.mixed ∨ g.type = GType.directed
    then getDirectedEdge g source target else none
  if truthy edge = true then edge
  else if g.type = GType.mixed ∨ g.type = GType.undirected
    then getUndirectedEdge g source target
  else edge

/-- Graph#undirected: the kind flag of a stored edge, NotFound otherwise. -/
def undirected (g : Graph) (edge : String) : Except GraphError Bool :=
  match aget g.edges edge with
  | none => .error .notFound
  | some d => .ok d.undirected

/-- Graph#directed: the negated kind flag, NotFound for an absent edge. -/
def directed (g : Graph) (edge : String) : Except GraphError Bool :=
  match undirected g edge with
  | .error e => .error e
  | .ok b => .ok (!b)

/-- Graph#hasDirectedEdge with one argument.  The source reads
map ? edges.has(edge) : edge in edges && directed(edge), so with map = true
the kind test is skipped entirely; with map = false the short-circuit guards
the directed call. -/
def hasDirectedEdge1 (g : Graph) (edge : String) : Bool :=
  if g.map = true then ahas g.edges edge
  else
    match aget g.edges edge with
    | none => false
    | some d => !d.undirected

/-- Graph#hasUndirectedEdge with one argument, with the same shape as the
directed variant: map = true skips the kind test. -/
def hasUndirectedEdge1 (g : Graph) (edge : String) : Bool :=
  if g.map = true then ahas g.edges edge
  else
    match aget g.edges edge with
    | none => false
    | some d => d.undirected

/-- Graph#source: the source extremity of a stored edge. -/
def source (g : Graph) (edge : String) : Except GraphError String :=
  match aget g.edges edge with
  | none => .error .notFound
  | some d => .ok d.source

/-- Graph#target: the target extremity of a stored edge. -/
def target (g : Graph) (edge : String) : Except GraphError String :=
  match aget g.edges edge with
  | none => .error .notFound
  | some d => .ok d.target

/-- Graph#extremities: both extremities of a stored edge. -/
def extremities (g : Graph) (edge : String) : Except GraphError (String × String) :=
  match aget g.edges edge with
  | none => .error .notFound
  | some d => .ok (d.source, d.target)

/-- Graph#relatedNode: NotFound when the node or the edge is absent, else the
extremity that differs from the node, the node itself for a self loop
(node === node1 ? node2 : node1 over the extremities pair). -/
def relatedNode (g : Graph) (node edge : String) : Except GraphError String :=
  if hasNode g node = false then .error .notFound
  else if hasEdge1 g edge = false then .error .notFound
  else
    match aget g.edges edge with
    | none => .error .notFound
    | some d => .ok (if node = d.source then d.target else d.source)

/-- A JavaScript number that may be NaN: none stands for NaN, and for the
undefined read of an absent counter, which turns into NaN at the first
addition exactly as none propagates here. -/
abbrev JSNum := Option Int

/-- JavaScript addition on possibly absent counters: any undefined or NaN
operand makes the sum NaN. -/
def jsAdd : JSNum → JSNum → JSNum
  | some a, some b => some (a + b)
  | _, _ => none

/-- The increment x++ on a possibly absent counter. -/
def jsInc : JSNum → JSNum
  | some n => some (n + 1)
  | none => none

/-- The decrement x-- on a possibly absent counter. -/
def jsDec : JSNum → JSNum
  | some n => some (n - 1)
  | none => none

/-- Graph#degree: NotFound for an absent node, then the JavaScript sum
outDegree + inDegree + undirectedDegree + (selfLoops ? selfLoops : 0) over
the record fields -- left associated, as in the source, so an absent counter
makes the whole sum NaN.  The boolean check on the selfLoops parameter of
graph.js is vacuous here since the parameter has type Bool. -/
def degree (g : Graph) (node : String) (selfLoops : Bool) : Except GraphError JSNum :=
  match aget g.nodes node with
  | none => .error .notFound
  | some d =>
    .ok (jsAdd (jsAdd (jsAdd d.outDegree d.inDegree) d.undirectedDegree)
      (some (if selfLoops = true then d.selfLoops else 0)))

/-- The attribute validation of Graph#addNode: an attributes argument was
given and is not a plain mapping. -/
def attrsInvalid : Option JSVal → Bool
  | some a => !(isPlainObject a)
  | none => false

/-- Graph#addNode: InvalidArgument for bad attributes, UsageViolation for a
duplicate node, else a fresh record with the counters the type uses, appended
to the node register, and order incremented.  Every mutation follows every
check.  The result pair carries the returned value (or the thrown error) and
the instance state after the call. -/
def addNode (g : Graph) (node : String) (attributes : Option JSVal) :
    Except GraphError String × Graph :=
  if attrsInvalid attributes = true then (.error .invalidArguments, g)
  else if hasNode g node = true then (.error .usage, g)
  else
    let data : NodeData :=
      { attributes := attributes.getD (JSVal.obj [])
        selfLoops := 0
        inDegree := if g.type = GType.mixed ∨ g.type = GType.directed then some 0 else none
        outDegree := if g.type = GType.mixed ∨ g.type = GType.directed then some 0 else none
        undirectedDegree :=
          if g.type = GType.mixed ∨ g.type = GType.undirected then some 0 else none }
    (.ok node, { g with nodes := aset g.nodes node data, order := g.order + 1 })

/-- Graph#addNodesFrom over a bunch.  Modelled from the spec for the bunch
iteration (overBunch lives in src/utils.js, absent from src/): the bunch is a
list of node keys with optional attributes, added in order; a throw from
addNode propagates at once, keeping the state reached so far. -/
def addNodesFrom (g : Graph) : List (String × Option JSVal) →
    Except GraphError Unit × Graph
  | [] => (.ok (), g)
  | (n, a) :: rest =>
    match addNode g n a with
    | (.ok _, g1) => addNodesFrom g1 rest
    | (.error e, g1) => (.error e, g1)

/-- In-place rewrite of the record of an existing node, the rendering of the
nodeData.counter++ mutations of graph.js; for a key without a record (a
dangling extremity, which no reachable state produces) the store is left
alone where graph.js would fail on an undefined read. -/
def updDeg (g : Graph) (node : String) (f : NodeData → NodeData) : Graph :=
  match aget g.nodes node with
  | none => g
  | some d => { g with nodes := aset g.nodes node (f d) }

/-- The mutation half of Graph#_addEdge, applied once every check has passed:
store the record, increment size, apply the degree rule (a self loop bumps
only selfLoops of the source; otherwise the kind decides which counters of
source and target move), then insert into the index when it is computed. -/
def addEdgeCommit (g : Graph) (undirected : Bool) (edge source target : String)
    (attrs : JSVal) : Graph :=
  let data : EdgeData :=
    { undirected := undirected, attributes := attrs, source := source, target := target }
  let g1 := { g with edges := aset g.edges edge data, size := g.size + 1 }
  let g2 :=
    if source = target then
      updDeg g1 source (fun d => { d with selfLoops := d.selfLoops + 1 })
    else if undirected = true then
      updDeg (updDeg g1 source
          (fun d => { d with undirectedDegree := jsInc d.undirectedDegree }))
        target (fun d => { d with undirectedDegree := jsInc d.undirectedDegree })
    else
      updDeg (updDeg g1 source (fun d => { d with outDegree := jsInc d.outDegree }))
        target (fun d => { d with inDegree := jsInc d.inDegree })
  _updateIndexStructure g2 edge data

/-- Graph#_addEdge, with the checks in source order: kind against type (both
directions), attributes a plain mapping (after the attributes || defaulting),
source present, target present, edge key unused, self loop policy, and -- for
a simple graph -- no edge of the same kind already between the pair.  The
duplicate-pair test calls the arity-2 existence query, whose one side effect
is computing the structure index, so both the failure state of that check and
the base state of the commit carry computeIndexStructure. -/
def _addEdge (g : Graph) (undirected : Bool) (edge source target : String)
    (attributes : Option JSVal) : Except GraphError String × Graph :=
  let attrs := attributes.getD (JSVal.obj [])
  if undirected = false ∧ g.type = GType.undirected then (.error .usage, g)
  else if undirected = true ∧ g.type = GType.directed then (.error .usage, g)
  else if isPlainObject attrs = false then (.error .invalidArguments, g)
  else if hasNode g source = false then (.error .notFound, g)
  else if hasNode g target = false then (.error .notFound, g)
  else if hasEdge1 g edge = true then (.error .usage, g)
  else if g.selfLoops = false ∧ source = target then (.error .usage, g)
  else if g.multi = false ∧ (if undirected = true
      then hasUndirectedEdge2 g source target
      else hasDirectedEdge2 g source target) = true then
    (.error .usage, computeIndexStructure g)
  else
    (.ok edge,
      addEdgeCommit (if g.multi = false then computeIndexStructure g else g)
        undirected edge source target attrs)

/-- Graph#addEdgeWithKey: the kind of the graph, directed when mixed. -/
def addEdgeWithKey (g : Graph) (edge source target : String)
    (attributes : Option JSVal) : Except GraphError String × Graph :=
  _addEdge g (g.type = GType.undirected) edge source target attributes

/-- Graph#addDirectedEdgeWithKey. -/
def addDirectedEdgeWithKey (g : Graph) (edge source target : String)
    (attributes : Option JSVal) : Except GraphError String × Graph :=
  _addEdge g false edge source target attributes

/-- Graph#addUndirectedEdgeWithKey. -/
def addUndirectedEdgeWithKey (g : Graph) (edge source target : String)
    (attributes : Option JSVal) : Except GraphError String × Graph :=
  _addEdge g true edge source target attributes

/-- Graph#addEdge: the key comes from the configured edgeKeyGenerator, whose
first argument is whether the graph type is undirected. -/
def addEdge (g : Graph) (source target : String) (attributes : Option JSVal) :
    Except GraphError String × Graph :=
  _addEdge g (g.type = GType.undirected)
    (g.edgeKeyGenerator (g.type = GType.undirected) source target attributes)
    source target attributes

/-- Graph#addDirectedEdge: generator invoked with false, edge added directed. -/
def addDirectedEdge (g : Graph) (source target : String) (attributes : Option JSVal) :
    Except GraphError String × Graph :=
  _addEdge g false (g.edgeKeyGenerator false source target attributes)
    source target attributes

/-- Graph#addUndirectedEdge.  The source (graph.js line 952) invokes the
generator with false as its first argument, exactly as addDirectedEdge does,
although the edge then added is undirected. -/
def addUndirectedEdge (g : Graph) (source target : String) (attributes : Option JSVal) :
    Except GraphError String × Graph :=
  _addEdge g true (g.edgeKeyGenerator false source target attributes)
    source target attributes

/-- Graph#dropEdge: NotFound for an absent edge; otherwise remove the record,
decrement size, reverse the degree rule, and clear the edge from the index
when computed. -/
def dropEdge (g : Graph) (edge : String) : Except GraphError Unit × Graph :=
  match aget g.edges edge with
  | none => (.error .notFound, g)
  | some data =>
    let g1 := { g with edges := adel g.edges edge, size := g.size - 1 }
    let g2 :=
      if data.source = data.target then
        updDeg g1 data.source (fun d => { d with selfLoops := d.selfLoops - 1 })
      else if data.undirected = true then
        updDeg (updDeg g1 data.source
            (fun d => { d with undirectedDegree := jsDec d.undirectedDegree }))
          data.target (fun d => { d with undirectedDegree := jsDec d.undirectedDegree })
      else
        updDeg (updDeg g1 data.source (fun d => { d with outDegree := jsDec d.outDegree }))
          data.target (fun d => { d with inDegree := jsDec d.inDegree })
    (.ok (), _clearEdgeFromIndexStructure g2 edge data)

/-- Modelled from the spec: the edges incident to a node, the arity-1
Graph#edges call of dropNode (src/iteration/edges.js is absent from src/; the
spec, section 4.1, asks for all incident edges): every stored edge with the
node as source or target, in store order. -/
def incidentEdges (g : Graph) (node : String) : List String :=
  (g.edges.filter (fun p => p.2.source = node || p.2.target = node)).map Prod.fst

/-- The edge-dropping loop of Graph#dropNode: each listed edge is dropped in
turn; a throw propagates at once with the state reached so far. -/
def dropEdgeList (g : Graph) : List String → Except GraphError Unit × Graph
  | [] => (.ok (), g)
  | e :: rest =>
    match dropEdge g e with
    | (.ok _, g1) => dropEdgeList g1 rest
    | (.error err, g1) => (.error err, g1)

/-- Graph#dropNode: NotFound for an absent node; otherwise drop every
incident edge through dropEdge, then remove the record and decrement order. -/
def dropNode (g : Graph) (node : String) : Except GraphError Unit × Graph :=
  if hasNode g node = false then (.error .notFound, g)
  else
    match dropEdgeList g (incidentEdges g node) with
    | (.error err, g1) => (.error err, g1)
    | (.ok _, g1) =>
      (.ok (), { g1 with nodes := adel g1.nodes node, order := g1.order - 1 })

/-- Graph#clear: empty stores, zero counters, every index uncomputed.  The
registers of the discarded node records disappear with them, so the index
table empties as well. -/
def clear (g : Graph) : Graph :=
  { g with edges := [], nodes := [], order := 0, size := 0
           structureComputed := false, index := [] }

/-- The observable entity state of a graph: order, size, node store (with its
degree and selfLoops counters) and edge store -- everything except the
constructor options and the structure index. -/
def entityView (g : Graph) : Int × Int × Assoc NodeData × Assoc EdgeData :=
  (g.order, g.size, g.nodes, g.edges)

theorem entityView_order {g g' : Graph} (h : entityView g' = entityView g) :
    g'.order = g.order := congrArg (fun v => v.1) h

theorem entityView_size {g g' : Graph} (h : entityView g' = entityView g) :
    g'.size = g.size := congrArg (fun v => v.2.1) h

theorem entityView_nodes {g g' : Graph} (h : entityView g' = entityView g) :
    g'.nodes = g.nodes := congrArg (fun v => v.2.2.1) h

theorem entityView_edges {g g' : Graph} (h : entityView g' = entityView g) :
    g'.edges = g.edges := congrArg (fun v => v.2.2.2) h

theorem usi_entityView (g : Graph) (e : String) (d : EdgeData) :
    entityView (updateStructureIndex g e d) = entityView g := by
  unfold updateStructureIndex
  split <;> rfl

theorem usi_structureComputed (g : Graph) (e : String) (d : EdgeData) :
    (updateStructureIndex g e d).structureComputed = g.structureComputed := by
  unfold updateStructureIndex
  split <;> rfl

theorem foldl_usi_preserve {β : Type} (f : Graph → β)
    (hf : ∀ a e d, f (updateStructureIndex a e d) = f a)
    (l : List (String × EdgeData)) (acc : Graph) :
    f (List.foldl (fun a p => updateStructureIndex a p.1 p.2) acc l) = f acc := by
  induction l generalizing acc with
  | nil => rfl
  | cons p rest ih => rw [List.foldl_cons, ih, hf]

theorem cis_entityView (g : Graph) :
    entityView (computeIndexStructure g) = entityView g := by
  unfold computeIndexStructure
  split
  · rfl
  · rw [foldl_usi_preserve entityView usi_entityView]
    rfl

theorem cis_structureComputed (g : Graph) :
    (computeIndexStructure g).structureComputed = true := by
  unfold computeIndexStructure
  split
  · assumption
  · rw [foldl_usi_preserve (fun x => x.structureComputed) usi_structureComputed]

theorem cis_nodes (g : Graph) : (computeIndexStructure g).nodes = g.nodes :=
  entityView_nodes (cis_entityView g)

theorem cis_edges (g : Graph) : (computeIndexStructure g).edges = g.edges :=
  entityView_edges (cis_entityView g)

theorem cis_of_computed {g : Graph} (h : g.structureComputed = true) :
    computeIndexStructure g = g := by
  unfold computeIndexStructure
  simp [h]

theorem uidx_entityView (g : Graph) (e : String) (d : EdgeData) :
    entityView (_updateIndexStructure g e d) = entityView g := by
  unfold _updateIndexStructure
  split
  · rfl
  · exact usi_entityView g e d

theorem cefi_entityView (g : Graph) (e : String) (d : EdgeData) :
    entityView (_clearEdgeFromIndexStructure g e d) = entityView g := by
  unfold _clearEdgeFromIndexStructure clearEdgeFromStructureIndex
  split
  · rfl
  · split <;> rfl

theorem updDeg_order (g : Graph) (k : String) (f : NodeData → NodeData) :
    (updDeg g k f).order = g.order := by
  unfold updDeg
  split <;> rfl

theorem updDeg_size (g : Graph) (k : String) (f : NodeData → NodeData) :
    (updDeg g k f).size = g.size := by
  unfold updDeg
  split <;> rfl

theorem updDeg_edges (g : Graph) (k : String) (f : NodeData → NodeData) :
    (updDeg g k f).edges = g.edges := by
  unfold updDeg
  split <;> rfl

theorem updDeg_nodes_length (g : Graph) (k : String) (f : NodeData → NodeData) :
    (updDeg g k f).nodes.length = g.nodes.length := by
  unfold updDeg
  split
  · rfl
  · next d hd =>
    have hhas : ahas g.nodes k = true := by unfold ahas; rw [hd]; rfl
    simp [length_aset, hhas]

theorem updDeg_ahas (g : Graph) (k : String) (f : NodeData → NodeData)
    {j : String} (h : ahas g.nodes j = true) :
    ahas (updDeg g k f).nodes j = true := by
  unfold updDeg
  split
  · exact h
  · exact ahas_aset_of_ahas k _ h

theorem cefi_nodes (g : Graph) (e : String) (d : EdgeData) :
    (_clearEdgeFromIndexStructure g e d).nodes = g.nodes :=
  entityView_nodes (cefi_entityView g e d)

/-- The counting invariant of the spec: the order property equals the number
of node records and the size property equals the number of edge records. -/
def countersMatch (g : Graph) : Prop :=
  g.order = (g.nodes.length : Int) ∧ g.size = (g.edges.length : Int)

theorem countersMatch_of_entityView {g g' : Graph}
    (h : entityView g' = entityView g) (hc : countersMatch g) : countersMatch g' := by
  unfold countersMatch at hc ⊢
  rw [entityView_order h, entityView_size h, entityView_nodes h, entityView_edges h]
  exact hc

theorem updDeg_counters {g : Graph} (k : String) (f : NodeData → NodeData)
    (hc : countersMatch g) : countersMatch (updDeg g k f) := by
  unfold countersMatch at hc ⊢
  rw [updDeg_order, updDeg_size, updDeg_nodes_length, updDeg_edges]
  exact hc

theorem addNode_counters (g : Graph) (n : String) (a : Option JSVal)
    (hc : countersMatch g) : countersMatch (addNode g n a).2 := by
  unfold addNode
  split_ifs with h1 h2 <;>
    first
    | exact hc
    | (have hn : ahas g.nodes n = false := Bool.eq_false_iff.mpr h2
       obtain ⟨ho, hs⟩ := hc
       dsimp only
       refine ⟨?_, hs⟩
       show g.order + 1 = _
       rw [length_aset]
       simp only [hn, Bool.false_eq_true, if_false]
       push_cast
       omega)

theorem addNodesFrom_counters (g : Graph) (l : List (String × Option JSVal))
    (hc : countersMatch g) : countersMatch (addNodesFrom g l).2 := by
  induction l generalizing g with
  | nil => exact hc
  | cons p rest ih =>
    unfold addNodesFrom
    have h1 := addNode_counters g p.1 p.2 hc
    split
    · next g1 heq => rw [heq] at h1; exact ih g1 h1
    · next e g1 heq => rw [heq] at h1; exact h1

theorem addEdgeCommit_counters {g : Graph} (und : Bool) (e s t : String)
    (attrs : JSVal) (hfresh : ahas g.edges e = false) (hc : countersMatch g) :
    countersMatch (addEdgeCommit g und e s t attrs) := by
  have hg1 : countersMatch
      { g with edges := aset g.edges e ⟨und, attrs, s, t⟩, size := g.size + 1 } := by
    obtain ⟨ho, hs⟩ := hc
    refine ⟨ho, ?_⟩
    show g.size + 1 = _
    rw [length_aset]
    simp only [hfresh, Bool.false_eq_true, if_false]
    push_cast
    omega
  simp only [addEdgeCommit]
  apply countersMatch_of_entityView (uidx_entityView _ _ _)
  split_ifs <;> (repeat apply updDeg_counters) <;> exact hg1

theorem _addEdge_counters (g : Graph) (und : Bool) (e s t : String)
    (a : Option JSVal) (hc : countersMatch g) :
    countersMatch (_addEdge g und e s t a).2 := by
  have hcis := countersMatch_of_entityView (cis_entityView g) hc
  simp only [_addEdge]
  split_ifs with h1 h2 h3 h4 h5 h6 h7 h8 <;>
    first
    | exact hc
    | exact hcis
    | (apply addEdgeCommit_counters
       · first
         | (show ahas (computeIndexStructure g).edges e = false
            rw [cis_edges]
            unfold hasEdge1 at h6
            exact eq_false_of_ne_true h6)
         | (unfold hasEdge1 at h6
            exact eq_false_of_ne_true h6)
       · first
         | exact hcis
         | exact hc)

theorem dropEdge_counters (g : Graph) (e : String) (hc : countersMatch g) :
    countersMatch (dropEdge g e).2 := by
  unfold dropEdge
  split
  · exact hc
  · next data hd =>
    have hhas : ahas g.edges e = true := by unfold ahas; rw [hd]; rfl
    have hg1 : countersMatch { g with edges := adel g.edges e, size := g.size - 1 } := by
      obtain ⟨ho, hs⟩ := hc
      refine ⟨ho, ?_⟩
      have hlen := length_adel g.edges e
      rw [hhas] at hlen
      simp only [if_true] at hlen
      show g.size - 1 = ((adel g.edges e).length : Int)
      omega
    dsimp only
    apply countersMatch_of_entityView (cefi_entityView _ _ _)
    split_ifs <;> (repeat apply updDeg_counters) <;> exact hg1

theorem dropEdge_nodes_ahas (g : Graph) (e : String) {j : String}
    (h : ahas g.nodes j = true) : ahas (dropEdge g e).2.nodes j = true := by
  unfold dropEdge
  split
  · exact h
  · dsimp only
    rw [cefi_nodes]
    split_ifs <;> (repeat apply updDeg_ahas) <;> exact h

theorem dropEdgeList_counters (l : List String) (g : Graph)
    (hc : countersMatch g) : countersMatch (dropEdgeList g l).2 := by
  induction l generalizing g with
  | nil => exact hc
  | cons e rest ih =>
    unfold dropEdgeList
    have h1 := dropEdge_counters g e hc
    split
    · next g1 heq => rw [heq] at h1; exact ih g1 h1
    · next err g1 heq => rw [heq] at h1; exact h1

theorem dropEdgeList_nodes_ahas (l : List String) (g : Graph) {j : String}
    (h : ahas g.nodes j = true) : ahas (dropEdgeList g l).2.nodes j = true := by
  induction l generalizing g with
  | nil => exact h
  | cons e rest ih =>
    unfold dropEdgeList
    have h1 := dropEdge_nodes_ahas g e h
    split
    · next g1 heq => rw [heq] at h1; exact ih g1 h1
    · next err g1 heq => rw [heq] at h1; exact h1

theorem dropNode_counters (g : Graph) (n : String) (hc : countersMatch g) :
    countersMatch (dropNode g n).2 := by
  unfold dropNode
  split_ifs with h1
  · exact hc
  · have hn : hasNode g n = true := by
      cases hb : hasNode g n
      · exact absurd hb h1
      · rfl
    have hdl := dropEdgeList_counters (incidentEdges g n) g hc
    have hdn := dropEdgeList_nodes_ahas (incidentEdges g n) g (j := n) hn
    split
    · next err g1 heq => rw [heq] at hdl; exact hdl
    · next g1 heq =>
      have hdl2 : countersMatch g1 := by rw [heq] at hdl; exact hdl
      have hdn2 : ahas g1.nodes n = true := by rw [heq] at hdn; exact hdn
      obtain ⟨ho, hs⟩ := hdl2
      have hlen := length_adel g1.nodes n
      rw [hdn2] at hlen
      simp only [if_true] at hlen
      refine ⟨?_, ?_⟩
      · show g1.order - 1 = ((adel g1.nodes n).length : Int)
        omega
      · show g1.size = (g1.edges.length : Int)
        exact hs

theorem clear_counters (g : Graph) : countersMatch (clear g) := by
  constructor <;> rfl

/-- One public mutation call of the claim C3 list, relating a state to the
state the call leaves behind (also when the call reports an error). -/
inductive Step : Graph → Graph → Prop where
  | addNode (g : Graph) (n : String) (a : Option JSVal) :
      Step g (Graphology.addNode g n a).2
  | addNodesFrom (g : Graph) (l : List (String × Option JSVal)) :
      Step g (Graphology.addNodesFrom g l).2
  | addEdgeWithKey (g : Graph) (e s t : String) (a : Option JSVal) :
      Step g (Graphology.addEdgeWithKey g e s t a).2
  | addDirectedEdgeWithKey (g : Graph) (e s t : String) (a : Option JSVal) :
      Step g (Graphology.addDirectedEdgeWithKey g e s t a).2
  | addUndirectedEdgeWithKey (g : Graph) (e s t : String) (a : Option JSVal) :
      Step g (Graphology.addUndirectedEdgeWithKey g e s t a).2
  | addEdge (g : Graph) (s t : String) (a : Option JSVal) :
      Step g (Graphology.addEdge g s t a).2
  | addDirectedEdge (g : Graph) (s t : String) (a : Option JSVal) :
      Step g (Graphology.addDirectedEdge g s t a).2
  | addUndirectedEdge (g : Graph) (s t : String) (a : Option JSVal) :
      Step g (Graphology.addUndirectedEdge g s t a).2
  | dropNode (g : Graph) (n : String) :
      Step g (Graphology.dropNode g n).2
  | dropEdge (g : Graph) (e : String) :
      Step g (Graphology.dropEdge g e).2
  | clear (g : Graph) :
      Step g (Graphology.clear g)

/-- The states reachable from a given state by the mutation calls above. -/
def Reachable : Graph → Graph → Prop := Relation.ReflTransGen Step

theorem step_counters {g g' : Graph} (h : Step g g') (hc : countersMatch g) :
    countersMatch g' := by
  cases h with
  | addNode n a => exact addNode_counters g n a hc
  | addNodesFrom l => exact addNodesFrom_counters g l hc
  | addEdgeWithKey e s t a => exact _addEdge_counters g _ e s t a hc
  | addDirectedEdgeWithKey e s t a => exact _addEdge_counters g false e s t a hc
  | addUndirectedEdgeWithKey e s t a => exact _addEdge_counters g true e s t a hc
  | addEdge s t a => exact _addEdge_counters g _ _ s t a hc
  | addDirectedEdge s t a => exact _addEdge_counters g false _ s t a hc
  | addUndirectedEdge s t a => exact _addEdge_counters g true _ s t a hc
  | dropNode n => exact dropNode_counters g n hc
  | dropEdge e => exact dropEdge_counters g e hc
  | clear => exact clear_counters g

theorem cis_order (g : Graph) : (computeIndexStructure g).order = g.order :=
  entityView_order (cis_entityView g)

theorem cis_size (g : Graph) : (computeIndexStructure g).size = g.size :=
  entityView_size (cis_entityView g)

theorem hasNode_cis (g : Graph) (n : String) :
    hasNode (computeIndexStructure g) n = hasNode g n := by
  unfold hasNode
  rw [cis_nodes]

theorem hasDirectedEdge2_nodes {g : Graph} {s t : String}
    (h : hasDirectedEdge2 g s t = true) :
    hasNode g s = true ∧ hasNode g t = true := by
  simp only [hasDirectedEdge2] at h
  split at h
  · simp at h
  · next hcond =>
    rw [not_or, hasNode_cis, hasNode_cis] at hcond
    obtain ⟨hs, ht⟩ := hcond
    exact ⟨eq_true_of_ne_false hs, eq_true_of_ne_false ht⟩

theorem hasUndirectedEdge2_nodes {g : Graph} {s t : String}
    (h : hasUndirectedEdge2 g s t = true) :
    hasNode g s = true ∧ hasNode g t = true := by
  simp only [hasUndirectedEdge2] at h
  split at h
  · simp at h
  · next hcond =>
    rw [not_or, hasNode_cis, hasNode_cis] at hcond
    obtain ⟨hs, ht⟩ := hcond
    exact ⟨eq_true_of_ne_false hs, eq_true_of_ne_false ht⟩

/-- A constant edge key generator used by the concrete scenarios. -/
def genConst : Bool → String → String → Option JSVal → String := fun _ _ _ _ => "gk"

/-- Scenario A of the spec, step by step: a directed simple graph. -/
def gA0 : Graph := newGraph false false GType.directed true genConst

def gA1 : Graph := (addNode gA0 "A" none).2

def gA2 : Graph := (addNode gA1 "B" none).2

/-- Scenario A final state: nodes A and B, directed edge e1 from A to B. -/
def gA : Graph := (addDirectedEdgeWithKey gA2 "e1" "A" "B" none).2

/-- C1: evaluating scenario A on the code.  The adds succeed and
hasDirectedEdge(A, B) is true as the claim states, but degree(A) and
degree(B) are NaN (none), not 1: Graph#degree reads data.undirectedDegree,
which addNode never initializes on a graph of type directed, and the
JavaScript sum with an undefined operand is NaN. -/
theorem scenarioA_hasDirectedEdge_true_but_degree_NaN :
    (addDirectedEdgeWithKey gA2 "e1" "A" "B" none).1 = .ok "e1"
  ∧ hasDirectedEdge2 gA "A" "B" = true
  ∧ degree gA "A" true = .ok none
  ∧ degree gA "B" true = .ok none := by
  refine ⟨?_, ?_, ?_, ?_⟩ <;> rfl

/-- An edge key generator that reveals its first (isUndirected) argument. -/
def genFlag : Bool → String → String → Option JSVal → String :=
  fun isUndirected _ _ _ => if isUndirected then "U" else "D"

def gGen0 : Graph := newGraph false false GType.mixed true genFlag

def gGen1 : Graph := (addNode gGen0 "A" none).2

/-- A mixed graph with nodes A and B and the flag-revealing generator. -/
def gGen : Graph := (addNode gGen1 "B" none).2

/-- C2: evaluating Graph#addUndirectedEdge on the code.  graph.js line 952
invokes the configured edgeKeyGenerator with false as its first argument, so
the undirected edge is stored under the key the generator produces for
isUndirected = false (here D), not the key for true (here U). -/
theorem addUndirectedEdge_generator_gets_false :
    (addUndirectedEdge gGen "A" "B" none).1 = .ok "D"
  ∧ aget (addUndirectedEdge gGen "A" "B" none).2.edges "D" =
      some { undirected := true, attributes := JSVal.obj [], source := "A", target := "B" }
  ∧ aget (addUndirectedEdge gGen "A" "B" none).2.edges "U" = none := by
  refine ⟨?_, ?_, ?_⟩ <;> rfl

/-- C3: in every state reachable from a freshly constructed graph by any
sequence of addNode, addNodesFrom, the add-edge variants, dropNode, dropEdge
and clear, the order property equals the number of stored node records and
the size property equals the number of stored edge records. -/
theorem order_size_match_stores (m mu sl : Bool) (ty : GType)
    (gen : Bool → String → String → Option JSVal → String) (g : Graph)
    (h : Reachable (newGraph m mu ty sl gen) g) :
    g.order = (g.nodes.length : Int) ∧ g.size = (g.edges.length : Int) := by
  induction h with
  | refl => exact ⟨rfl, rfl⟩
  | tail hsteps hstep ih => exact step_counters hstep ih

/-- C3 witness: the invariant at the concrete state reached by one addNode. -/
def gW3 : Graph := (addNode (newGraph false false GType.mixed true genConst) "A" none).2

/-- C3 witness, applying the theorem along a one-step reachability chain. -/
theorem order_size_match_stores_witness :
    gW3.order = (gW3.nodes.length : Int) ∧ gW3.size = (gW3.edges.length : Int) :=
  order_size_match_stores false false true GType.mixed genConst gW3
    (Relation.ReflTransGen.single
      (Step.addNode (newGraph false false GType.mixed true genConst) "A" none))

set_option maxHeartbeats 1000000 in
/-- C4: on a simple graph (multi = false), an attempt to add an edge of a
kind that already connects the pair -- direction-sensitive for directed,
direction-insensitive for undirected -- fails with UsageViolation and leaves
size unchanged.  With well-formed attributes every failing branch of such an
attempt is a UsageViolation (the NotFound checks cannot fire because a stored
pair has stored extremities), and none of them mutates the entity state. -/
theorem simple_graph_duplicate_pair_rejected (g : Graph) (und : Bool)
    (e s t : String) (hmulti : g.multi = false)
    (hdup : (if und = true then hasUndirectedEdge2 g s t
      else hasDirectedEdge2 g s t) = true) :
    (_addEdge g und e s t none).1 = .error .usage
  ∧ (_addEdge g und e s t none).2.size = g.size := by
  have hnodes : hasNode g s = true ∧ hasNode g t = true := by
    cases und with
    | false => exact hasDirectedEdge2_nodes (by simpa using hdup)
    | true => exact hasUndirectedEdge2_nodes (by simpa using hdup)
  cases und with
  | false =>
    have hd : hasDirectedEdge2 g s t = true := by simpa using hdup
    simp only [_addEdge]
    split_ifs <;>
      first
      | exact ⟨rfl, rfl⟩
      | exact ⟨rfl, cis_size g⟩
      | exact cis_size g
      | simp_all [cis_size, isPlainObject]
  | true =>
    have hu : hasUndirectedEdge2 g s t = true := by simpa using hdup
    simp only [_addEdge]
    split_ifs <;>
      first
      | exact ⟨rfl, rfl⟩
      | exact ⟨rfl, cis_size g⟩
      | exact cis_size g
      | simp_all [cis_size, isPlainObject]

/-- C4 witness: scenario B.  On the simple directed graph of scenario A, a
second directed edge between A and B is rejected with UsageViolation and size
stays at 1. -/
theorem simple_graph_duplicate_pair_rejected_witness :
    gA.multi = false
  ∧ hasDirectedEdge2 gA "A" "B" = true
  ∧ ((_addEdge gA false "e2" "A" "B" none).1 = .error .usage
      ∧ (_addEdge gA false "e2" "A" "B" none).2.size = gA.size)
  ∧ gA.size = 1 := by
  refine ⟨rfl, rfl, ?_, by decide⟩
  exact simple_graph_duplicate_pair_rejected gA false "e2" "A" "B" rfl (by rfl)

set_option maxHeartbeats 1000000 in
theorem _addEdge_error_entityView (g : Graph) (und : Bool) (e s t : String)
    (a : Option JSVal) (h : isErr (_addEdge g und e s t a).1 = true) :
    entityView (_addEdge g und e s t a).2 = entityView g := by
  simp only [_addEdge] at h ⊢
  split_ifs at h ⊢ <;>
    first
    | rfl
    | exact cis_entityView g
    | simp [isErr] at h

/-- C5: every add-edge variant that reports an error leaves the observable
entity state -- order, size, the node store with its degree and selfLoops
counters, and the edge store -- exactly as it was: in the source every throw
precedes every entity mutation, and the only side effect a failing call can
have is computing the structure index during the duplicate-pair check. -/
theorem addEdge_variants_error_atomic (g : Graph) (e s t : String) (a : Option JSVal) :
    (isErr (addEdgeWithKey g e s t a).1 = true →
      entityView (addEdgeWithKey g e s t a).2 = entityView g)
  ∧ (isErr (addDirectedEdgeWithKey g e s t a).1 = true →
      entityView (addDirectedEdgeWithKey g e s t a).2 = entityView g)
  ∧ (isErr (addUndirectedEdgeWithKey g e s t a).1 = true →
      entityView (addUndirectedEdgeWithKey g e s t a).2 = entityView g)
  ∧ (isErr (addEdge g s t a).1 = true →
      entityView (addEdge g s t a).2 = entityView g)
  ∧ (isErr (addDirectedEdge g s t a).1 = true →
      entityView (addDirectedEdge g s t a).2 = entityView g)
  ∧ (isErr (addUndirectedEdge g s t a).1 = true →
      entityView (addUndirectedEdge g s t a).2 = entityView g) :=
  ⟨fun h => _addEdge_error_entityView g _ e s t a h,
   fun h => _addEdge_error_entityView g false e s t a h,
   fun h => _addEdge_error_entityView g true e s t a h,
   fun h => _addEdge_error_entityView g _ _ s t a h,
   fun h => _addEdge_error_entityView g false _ s t a h,
   fun h => _addEdge_error_entityView g true _ s t a h⟩

/-- C5 witness: re-adding the key e1 on the scenario A graph throws, and the
entity state is unchanged. -/
theorem addEdge_variants_error_atomic_witness :
    isErr (addDirectedEdgeWithKey gA "e1" "A" "B" none).1 = true
  ∧ entityView (addDirectedEdgeWithKey gA "e1" "A" "B" none).2 = entityView gA :=
  ⟨rfl, (addEdge_variants_error_atomic gA "e1" "A" "B" none).2.1 rfl⟩

/-- C6: the two-argument existence queries return false, not an error, when
the source node or the target node is absent; the arity-2 branch of the
source contains no throw, so its rendering here is a total Bool function. -/
theorem has_pair_returns_false_for_absent_node (g : Graph) (s t : String)
    (h : hasNode g s = false ∨ hasNode g t = false) :
    hasDirectedEdge2 g s t = false ∧ hasUndirectedEdge2 g s t = false
  ∧ hasEdge2 g s t = false := by
  have hgi : hasNode (computeIndexStructure g) s = false
      ∨ hasNode (computeIndexStructure g) t = false := by
    rw [hasNode_cis, hasNode_cis]
    exact h
  have hd : hasDirectedEdge2 g s t = false := by
    simp only [hasDirectedEdge2]
    rw [if_pos hgi]
  have hu : hasUndirectedEdge2 g s t = false := by
    simp only [hasUndirectedEdge2]
    rw [if_pos hgi]
  exact ⟨hd, hu, by simp [hasEdge2, hd, hu]⟩

/-- C6 witness: node Z is absent from the scenario A graph and all three
queries return false on the pair (A, Z). -/
theorem has_pair_returns_false_for_absent_node_witness :
    hasNode gA "Z" = false
  ∧ (hasDirectedEdge2 gA "A" "Z" = false ∧ hasUndirectedEdge2 gA "A" "Z" = false
      ∧ hasEdge2 gA "A" "Z" = false) :=
  ⟨rfl, has_pair_returns_false_for_absent_node gA "A" "Z" (Or.inr rfl)⟩

/-- A mixed simple graph with nodes A and B, shared by the C7 states. -/
def gE0 : Graph := newGraph false false GType.mixed true genConst

def gE1 : Graph := (addNode gE0 "A" none).2

def gE2 : Graph := (addNode gE1 "B" none).2

/-- The C7 counterexample state after adding a directed edge keyed by the
empty string between A and B. -/
def gE3 : Graph := (addDirectedEdgeWithKey gE2 "" "A" "B" none).2

/-- The C7 counterexample state: a directed edge keyed by the empty string
and an undirected edge keyed u both connect A and B in a mixed graph. -/
def gE : Graph := (addUndirectedEdgeWithKey gE3 "u" "A" "B" none).2

/-- C7 counterexample: in the mixed graph gE the directed lookup finds the
edge keyed by the empty string, yet getEdge returns the undirected edge u:
the if (edge) test of graph.js treats the falsy empty-string key as no hit,
so the claimed directed-first tie-break fails at this input. -/
theorem getEdge_not_directed_result_for_empty_key :
    gE.type = GType.mixed
  ∧ getDirectedEdge gE "A" "B" = some ""
  ∧ getEdge gE "A" "B" = some "u" := by
  refine ⟨rfl, ?_, ?_⟩ <;> rfl

/-- C7 as amended: getEdge returns the directed lookup result whenever the
type permits directed edges and that lookup finds an edge with a truthy
(non-empty) key; only otherwise does it fall back to the undirected lookup
when the type permits one. -/
theorem getEdge_directed_first_when_truthy (g : Graph) (s t : String) :
    ((g.type = GType.mixed ∨ g.type = GType.directed) →
      truthy (getDirectedEdge g s t) = true →
      getEdge g s t = getDirectedEdge g s t)
  ∧ (g.type = GType.mixed → truthy (getDirectedEdge g s t) = false →
      getEdge g s t = getUndirectedEdge g s t)
  ∧ (g.type = GType.undirected → getEdge g s t = getUndirectedEdge g s t) := by
  refine ⟨?_, ?_, ?_⟩
  · intro hty htr
    simp only [getEdge, if_pos hty, htr, if_true]
  · intro hty htr
    have h1 : g.type = GType.mixed ∨ g.type = GType.directed := Or.inl hty
    have h2 : g.type = GType.mixed ∨ g.type = GType.undirected := Or.inl hty
    simp only [getEdge, if_pos h1, if_pos h2, htr]
    simp
  · intro hty
    simp [getEdge, hty, truthy]

/-- The C7 witness state: a directed edge d and an undirected edge u both
connect A and B in a mixed graph. -/
def gB3 : Graph := (addDirectedEdgeWithKey gE2 "d" "A" "B" none).2

def gB : Graph := (addUndirectedEdgeWithKey gB3 "u" "A" "B" none).2

/-- C7 witness: with both kinds of edge between A and B and a truthy directed
key, getEdge picks the directed edge d. -/
theorem getEdge_directed_first_when_truthy_witness :
    getDirectedEdge gB "A" "B" = some "d"
  ∧ getUndirectedEdge gB "A" "B" = some "u"
  ∧ getEdge gB "A" "B" = some "d" := by
  have hd : getDirectedEdge gB "A" "B" = some "d" := by decide
  have h := (getEdge_directed_first_when_truthy gB "A" "B").1 (Or.inl rfl) (by decide)
  exact ⟨hd, by decide, h.trans hd⟩

/-- C8: relatedNode throws NotFound when the node or the edge is absent;
when both exist and the node is an extremity of the edge it returns the other
extremity, which for a self loop is the node itself (the conclusion value
d.target when the node is the source, d.source otherwise, equals the node on
a self loop). -/
theorem relatedNode_other_extremity (g : Graph) (node edge : String) :
    (hasNode g node = false → relatedNode g node edge = .error .notFound)
  ∧ (hasNode g node = true → hasEdge1 g edge = false →
      relatedNode g node edge = .error .notFound)
  ∧ (∀ d : EdgeData, hasNode g node = true → aget g.edges edge = some d →
      (d.source = node ∨ d.target = node) →
      relatedNode g node edge = .ok (if node = d.source then d.target else d.source)) := by
  refine ⟨?_, ?_, ?_⟩
  · intro h
    simp [relatedNode, h]
  · intro h1 h2
    simp [relatedNode, h1, h2]
  · intro d h1 h2 _
    have he : hasEdge1 g edge = true := by
      unfold hasEdge1 ahas
      rw [h2]
      rfl
    simp [relatedNode, h1, he, h2]

/-- C8 witness: in scenario A the node related to B through e1 is A. -/
theorem relatedNode_other_extremity_witness :
    hasNode gA "B" = true
  ∧ aget gA.edges "e1" =
      some { undirected := false, attributes := JSVal.obj [], source := "A", target := "B" }
  ∧ relatedNode gA "B" "e1" = .ok "A" := by
  refine ⟨rfl, rfl, ?_⟩
  have h := (relatedNode_other_extremity gA "B" "e1").2.2
    { undirected := false, attributes := JSVal.obj [], source := "A", target := "B" }
    rfl rfl (Or.inr rfl)
  simpa using h

/-- C9: computeIndex of the structure index is idempotent: once a call has
computed it, a further structure call returns the very same graph state --
index contents included -- and re-inserts nothing, since the computed flag
short-circuits the edge walk. -/
theorem computeIndex_structure_idempotent (g g1 : Graph)
    (h : computeIndex g "structure" = .ok g1) :
    computeIndex g1 "structure" = .ok g1 := by
  have hr : computeIndex g "structure" = .ok (computeIndexStructure g) := rfl
  rw [hr] at h
  injection h with h
  subst h
  have hr2 : computeIndex (computeIndexStructure g) "structure"
      = .ok (computeIndexStructure (computeIndexStructure g)) := rfl
  rw [hr2, cis_of_computed (cis_structureComputed g)]

/-- The C9 witness state: the structure index of the two-node scenario A
stage gA2, explicitly computed. -/
def gAc : Graph := computeIndexStructure gA2

/-- C9 witness: computing the structure index of gA2 yields gAc, and a second
structure call on gAc returns gAc unchanged. -/
theorem computeIndex_structure_idempotent_witness :
    computeIndex gA2 "structure" = .ok gAc
  ∧ computeIndex gAc "structure" = .ok gAc :=
  ⟨rfl, computeIndex_structure_idempotent gA2 gAc rfl⟩

/-- C10: on a graph built with map = true the one-argument forms of
hasDirectedEdge and hasUndirectedEdge return true for every stored edge id,
whatever its undirected flag: in the source the ternary binds before the
conjunction, so the kind test is only reached when map is false. -/
theorem map_mode_arity1_has_skips_kind_check (g : Graph) (e : String)
    (hmap : g.map = true) (hstored : hasEdge1 g e = true) :
    hasDirectedEdge1 g e = true ∧ hasUndirectedEdge1 g e = true := by
  unfold hasDirectedEdge1 hasUndirectedEdge1
  rw [if_pos hmap, if_pos hmap]
  exact ⟨hstored, hstored⟩

/-- The C10 witness state: a map-mode mixed graph holding one undirected
edge u. -/
def gM0 : Graph := newGraph true false GType.mixed true genConst

def gM1 : Graph := (addNode gM0 "A" none).2

def gM2 : Graph := (addNode gM1 "B" none).2

def gM : Graph := (addUndirectedEdgeWithKey gM2 "u" "A" "B" none).2

/-- C10 witness: the stored edge u is undirected, yet both one-argument
queries answer true in map mode. -/
theorem map_mode_arity1_has_skips_kind_check_witness :
    gM.map = true ∧ hasEdge1 gM "u" = true ∧ undirected gM "u" = .ok true
  ∧ (hasDirectedEdge1 gM "u" = true ∧ hasUndirectedEdge1 gM "u" = true) :=
  ⟨rfl, rfl, rfl, map_mode_arity1_has_skips_kind_check gM "u" rfl rfl⟩

end Graphology
